import Mathlib

/-!
Shallow embedding of the tiny-entities simulation core, translated from the
Python sources under src/: the grid world (src/world/physics.py), the
non-deterministic action-resolution protocol (src/world/non_deterministic.py),
the emergent mood model (src/creatures/mood_system.py), the agent controller
(src/creatures/brain.py), the action selector
(src/creatures/action_selection.py) and the simulation engine
(src/simulation/engine.py).

Conventions of the embedding:
- Python floats are modelled as rationals (ℚ); Python ints as ℤ (coordinates,
  token counts) or ℕ (list lengths, counters).
- numpy arrays indexed grid[y, x] become total functions ℤ → ℤ → α; a slice
  becomes an explicit list of rows.
- Randomness (np.random.random, np.random.randint, np.random.choice) is
  threaded explicitly: every random draw the Python code makes is an input of
  the embedded function (a rational in [0,1), a sampled coordinate pair, or a
  direction index).
- Python dicts keyed by strings (creature position table, action-value table,
  situation-outcome memory) become association lists updated in insertion
  order, which preserves the dict iteration order the code relies on.
- The optional LLM client is absent (get_llm_client returns None when no API
  is configured); the code paths guarded by a present client are not taken,
  which is the configuration the spec's core covers.
-/

namespace TinyEntities

/-- Python float() truncation toward zero, as used by int(...) on a float. -/
def pyInt (q : ℚ) : ℤ := if 0 ≤ q then ⌊q⌋ else ⌈q⌉

/-- Python round(): round half to even (banker's rounding), modelled for
comparison with the spec's use of round(width*height*density). -/
def pyRound (q : ℚ) : ℤ :=
  if q - ⌊q⌋ < 1/2 then ⌊q⌋
  else if q - ⌊q⌋ > 1/2 then ⌊q⌋ + 1
  else if Even ⌊q⌋ then ⌊q⌋ else ⌊q⌋ + 1

/-- np.clip(v, lo, hi). -/
def npClip (v lo hi : ℚ) : ℚ := max lo (min hi v)

/-- Pointwise update of a function grid at one (x, y) cell. -/
def setCell {α : Type} (g : ℤ → ℤ → α) (x y : ℤ) (v : α) : ℤ → ℤ → α :=
  fun i j => if i = x ∧ j = y then v else g i j

/-! ## Mood model — src/creatures/mood_system.py -/

/-- Situation dictionary handed to the mood system: the three optional keys
food_nearby, creatures_nearby, sound_level that _hash_situation inspects. -/
structure Situation where
  food_nearby : Option Bool
  creatures_nearby : Option ℤ
  sound_level : Option ℚ
deriving DecidableEq

/-- Categorical situation fingerprint produced by
EmergentMoodSystem._hash_situation: food flag part, raw creature-count part,
and a binary high/low sound split at threshold 0.5, joined into one key. -/
structure SituationKey where
  foodPart : Option Bool
  creaturesPart : Option ℤ
  soundHighPart : Option Bool
deriving DecidableEq

/-- EmergentMoodSystem._hash_situation. -/
def hashSituation (s : Situation) : SituationKey :=
  { foodPart := s.food_nearby
    creaturesPart := s.creatures_nearby
    soundHighPart := s.sound_level.map (fun l => decide (l > 1/2)) }

/-- State of EmergentMoodSystem. The learning rates are the hard-coded
attributes set in __init__ (fast_learning = 0.1, slow_learning = 0.01);
__init__ takes no parameters besides self. -/
structure MoodSystem where
  valence : ℚ
  arousal : ℚ
  expected_reward : ℚ
  reward_history : List ℚ
  reward_baseline : ℚ
  situation_outcomes : List (SituationKey × List ℚ)
  fast_learning : ℚ
  slow_learning : ℚ
deriving DecidableEq

/-- EmergentMoodSystem.__init__ (mood_system.py lines 8-23): no configuration
parameter exists; all constants are hard-coded. -/
def MoodSystem.init : MoodSystem :=
  { valence := 0
    arousal := 1/2
    expected_reward := 0
    reward_history := []
    reward_baseline := 0
    situation_outcomes := []
    fast_learning := 1/10
    slow_learning := 1/100 }

/-- Association-list lookup for the situation_outcomes dict. -/
def lookupKey (m : List (SituationKey × List ℚ)) (k : SituationKey) :
    Option (List ℚ) :=
  match m with
  | [] => none
  | (k0, v) :: rest => if k0 = k then some v else lookupKey rest k

/-- Python: if key not in dict: dict[key] = []; dict[key].append(r).
New keys are appended in insertion order, as a Python dict does. -/
def appendOutcome (m : List (SituationKey × List ℚ)) (k : SituationKey)
    (r : ℚ) : List (SituationKey × List ℚ) :=
  match m with
  | [] => [(k, [r])]
  | (k0, v) :: rest =>
      if k0 = k then (k0, v ++ [r]) :: rest
      else (k0, v) :: appendOutcome rest k r

/-- np.mean of a list of rationals (total: 0 on the empty list, which the
code never hits on its own path because lookup follows an append). -/
def listMean (l : List ℚ) : ℚ := l.sum / (l.length : ℚ)

/-- EmergentMoodSystem._predict_reward: mean of the last up-to-10 outcomes
recorded for the situation key, or the long-term baseline for a new key. -/
def MoodSystem.predictReward (m : MoodSystem) (s : Situation) : ℚ :=
  match lookupKey m.situation_outcomes (hashSituation s) with
  | some l => listMean (l.drop (l.length - 10))
  | none => m.reward_baseline

/-- EmergentMoodSystem.process_experience (mood_system.py lines 25-59).
Returns the updated state and the returned dict
(valence, arousal, prediction_error). -/
def MoodSystem.processExperience (m : MoodSystem) (s : Situation)
    (actual_reward : ℚ) : MoodSystem × (ℚ × ℚ × ℚ) :=
  let prediction_error := actual_reward - m.expected_reward
  let arousal_change := |prediction_error| * m.fast_learning
  let arousal1 := min 1 (m.arousal + arousal_change)
  let valence_change := prediction_error * m.slow_learning
  let valence1 := npClip (m.valence + valence_change) (-1) 1
  let outcomes1 := appendOutcome m.situation_outcomes (hashSituation s)
    actual_reward
  let m1 : MoodSystem :=
    { m with
      valence := valence1
      arousal := arousal1
      situation_outcomes := outcomes1 }
  let expected1 := m1.predictReward s
  let arousal2 := arousal1 * (99/100)
  let m2 : MoodSystem := { m1 with expected_reward := expected1, arousal := arousal2 }
  (m2, (valence1, arousal2, prediction_error))

/-- Folding a sequence of (situation, reward) experiences through the mood
system, keeping only the state. -/
def MoodSystem.processList (m : MoodSystem) (l : List (Situation × ℚ)) :
    MoodSystem :=
  l.foldl (fun acc e => (acc.processExperience e.1 e.2).1) m

/-- The mood bounds invariant of the spec: valence in [-1, 1] and arousal in
[0, 1]. -/
def moodBounds (m : MoodSystem) : Prop :=
  -1 ≤ m.valence ∧ m.valence ≤ 1 ∧ 0 ≤ m.arousal ∧ m.arousal ≤ 1

instance (m : MoodSystem) : Decidable (moodBounds m) := by
  unfold moodBounds; infer_instance

/-! ## Configuration dataclasses — src/config/config_schema.py -/

/-- MoodConfig (config_schema.py lines 71-78), with its field defaults. -/
structure MoodConfig where
  fast_learning_rate : ℚ := 1/10
  slow_learning_rate : ℚ := 1/100
  arousal_decay : ℚ := 99/100
  initial_valence : ℚ := 0
  initial_arousal : ℚ := 1/2
deriving DecidableEq

/-- CreatureConfig (config_schema.py lines 45-57), with its field defaults. -/
structure CreatureConfig where
  initial_count : ℤ := 10
  starting_health : ℚ := 100
  starting_energy : ℚ := 100
  perception_radius : ℤ := 5
  max_action_tokens : ℤ := 50
  initial_action_tokens : ℤ := 10
  energy_cost_per_step : ℚ := 1
  health_decay_when_no_energy : ℚ := 1/10
deriving DecidableEq

/-! ## Grid world — src/world/physics.py

The numpy grid is indexed grid[y, x]; the embedding uses a total function
applied as grid x y. Cell codes follow the legend comment in the source:
0 = empty, 1 = food, 2 = obstacle, 3 = creature. The sound grid stores a
(frequency, amplitude) pair per cell. -/

structure SimpleWorld where
  width : ℤ
  height : ℤ
  food_spawn_rate : ℚ
  food_respawn_probability : ℚ
  food_respawn_amount : ℚ
  obstacle_density : ℚ
  sound_decay_rate : ℚ
  grid : ℤ → ℤ → ℤ
  sound_grid : ℤ → ℤ → ℚ × ℚ

/-- Bounds test 0 <= x < width and 0 <= y < height. -/
def SimpleWorld.inBoundsB (w : SimpleWorld) (x y : ℤ) : Bool :=
  decide (0 ≤ x) && decide (x < w.width) && decide (0 ≤ y) && decide (y < w.height)

/-- Count of attempts SimpleWorld._spawn_food makes:
int(self.width * self.height * density), truncation as Python int(). -/
def spawnFoodAttempts (w : SimpleWorld) (density : ℚ) : ℕ :=
  (pyInt ((w.width * w.height : ℤ) * density)).toNat

/-- One placement attempt of _spawn_food: a uniform cell draw —
np.random.randint(0, width) and (0, height), modelled by reducing the
sampled pair modulo the world dimensions — places food only on a
currently-empty cell; an attempt on an occupied cell is lost. -/
def spawnFoodStep (acc : SimpleWorld) (sample : ℤ × ℤ) : SimpleWorld :=
  let x := sample.1 % acc.width
  let y := sample.2 % acc.height
  if acc.grid x y = 0 then { acc with grid := setCell acc.grid x y 1 }
  else acc

/-- SimpleWorld._spawn_food (physics.py lines 54-61): int(w*h*density)
attempts, one sample each. -/
def SimpleWorld.spawnFood (w : SimpleWorld) (density : ℚ)
    (samples : ℕ → ℤ × ℤ) : SimpleWorld :=
  ((List.range (spawnFoodAttempts w density)).map samples).foldl spawnFoodStep w

/-- Window of a single view: rows y1 <= y < y2 of columns x1 <= x < x2. -/
def sliceGrid {α : Type} (g : ℤ → ℤ → α) (x1 x2 y1 y2 : ℤ) :
    List (List α) :=
  (List.range (y2 - y1).toNat).map fun (j : ℕ) =>
    (List.range (x2 - x1).toNat).map fun (i : ℕ) =>
      g (x1 + (i : ℤ)) (y1 + (j : ℤ))

/-- Count of cells of a given value in a visual window (np.sum(visual == v)). -/
def countVisual (visual : List (List ℤ)) (v : ℤ) : ℕ :=
  (visual.map (fun row => (row.filter (fun c => decide (c = v))).length)).sum

/-- Return value of SimpleWorld.get_local_view. -/
structure LocalView where
  visual : List (List ℤ)
  sound : List (List (ℚ × ℚ))
  food_count : ℕ
  obstacle_count : ℕ
  creature_count : ℕ
  center_offset : ℤ × ℤ
deriving DecidableEq

/-- SimpleWorld.get_local_view (physics.py lines 118-136). -/
def SimpleWorld.getLocalView (w : SimpleWorld) (x y : ℤ) (radius : ℤ) :
    LocalView :=
  let x1 := max 0 (x - radius)
  let x2 := min w.width (x + radius + 1)
  let y1 := max 0 (y - radius)
  let y2 := min w.height (y + radius + 1)
  let visual := sliceGrid w.grid x1 x2 y1 y2
  { visual := visual
    sound := sliceGrid w.sound_grid x1 x2 y1 y2
    food_count := countVisual visual 1
    obstacle_count := countVisual visual 2
    creature_count := countVisual visual 3
    center_offset := (radius - (x - x1), radius - (y - y1)) }

/-- Loop offsets of the propagation double loop in update_sound: dx outer
in [-1, 0, 1], dy inner in [-1, 0, 1]. -/
def neighborOffsets : List (ℤ × ℤ) :=
  [(-1, -1), (-1, 0), (-1, 1), (0, -1), (0, 0), (0, 1), (1, -1), (1, 0), (1, 1)]

/-- One iteration of the propagation double loop of update_sound (physics.py
lines 144-152): for loop offset d, when the neighbor cell x + dx, y + dy is
in bounds and is not the centre, raise it to half the emitted amplitude at
the emitted frequency if that is strictly louder than what it holds. -/
def soundPropStep (w : SimpleWorld) (x y : ℤ) (frequency amplitude : ℚ)
    (g : ℤ → ℤ → ℚ × ℚ) (d : ℤ × ℤ) : ℤ → ℤ → ℚ × ℚ :=
  if w.inBoundsB (x + d.1) (y + d.2) then
    if d.1 ≠ 0 ∨ d.2 ≠ 0 then
      if amplitude * (1/2) > (g (x + d.1) (y + d.2)).2 then
        setCell g (x + d.1) (y + d.2) (frequency, amplitude * (1/2))
      else g
    else g
  else g

/-- SimpleWorld.update_sound (physics.py lines 138-152): out-of-bounds calls
are a no-op; otherwise the centre cell is overwritten with
(frequency, amplitude) and the propagation loop visits the 3 x 3
neighborhood. -/
def SimpleWorld.updateSound (w : SimpleWorld) (x y : ℤ)
    (frequency amplitude : ℚ) : SimpleWorld :=
  if w.inBoundsB x y then
    let g0 := setCell w.sound_grid x y (frequency, amplitude)
    let g1 := neighborOffsets.foldl (soundPropStep w x y frequency amplitude) g0
    { w with sound_grid := g1 }
  else w

/-- SimpleWorld.step (physics.py lines 154-161): scale the whole sound grid
(both channels, as numpy *= does) by the decay rate, then with probability
food_respawn_probability spawn a small extra batch of food. -/
def SimpleWorld.step (w : SimpleWorld) (respawnDraw : ℚ)
    (samples : ℕ → ℤ × ℤ) : SimpleWorld :=
  let w1 := { w with
    sound_grid := fun i j =>
      ((w.sound_grid i j).1 * w.sound_decay_rate,
       (w.sound_grid i j).2 * w.sound_decay_rate) }
  if respawnDraw < w.food_respawn_probability then
    w1.spawnFood w1.food_respawn_amount samples
  else w1

/-- Count of food cells inside the world rectangle, used to state how many
food cells a spawn pass can add. -/
def SimpleWorld.foodCells (w : SimpleWorld) : ℕ :=
  ((List.range w.height.toNat).map fun (j : ℕ) =>
    ((List.range w.width.toNat).filter fun (i : ℕ) =>
      decide (w.grid (i : ℤ) (j : ℤ) = 1)).length).sum

/-! ## Agent controller — src/creatures/brain.py

The optional LLM reflection path (guarded by a present llm_client) is not
modelled: get_llm_client() returns None when no API is configured, which is
the configuration the core spec covers, so those branches are never taken. -/

/-- Perception dictionary built by SimulationEngine._process_perception:
exactly the five keys visual, sound, food_count, obstacle_count,
creature_count (center_offset is dropped). -/
structure Perception where
  visual : List (List ℤ)
  sound : List (List (ℚ × ℚ))
  food_count : ℕ
  obstacle_count : ℕ
  creature_count : ℕ
deriving DecidableEq

/-- Mean of the amplitude channel of a sound window
(np.mean(field[:, :, 1])). -/
def avgSoundAmp (sound : List (List (ℚ × ℚ))) : ℚ :=
  listMean ((sound.map (fun row => row.map Prod.snd)).flatten)

/-- Outcome dictionary returned by NonDeterministicWorldModel.propose_action.
Keys the Python code reads with .get and a default of 0 are plain fields
holding that default when the producing path did not set them. -/
structure Outcome where
  accepted : Bool
  new_position : ℤ × ℤ
  effect : String
  world_state : Option LocalView
  creatures_responded : ℕ
  near_creatures : ℕ
deriving DecidableEq

/-- State of EnhancedBrain (the fields process_timestep and get_action_bias
touch; the vocabulary list and llm bookkeeping are display-only). -/
structure Brain where
  creature_id : String
  health : ℚ
  energy : ℚ
  action_tokens : ℤ
  max_tokens : ℤ
  max_memory : ℕ
  energy_cost_per_step : ℚ
  health_decay_rate : ℚ
  mood_system : MoodSystem
  perception_memory : List Perception
  action_values : List (String × ℚ)

/-- Parameter names EmergentMoodSystem.__init__ accepts besides self
(mood_system.py line 8: def __init__(self) — there are none). -/
def moodSystemInitParams : List String := []

/-- Keyword arguments EnhancedBrain.__init__ passes to the EmergentMoodSystem
constructor (brain.py line 58: EmergentMoodSystem(config=mood_config)). -/
def brainMoodSystemCallKwargs : List String := ["config"]

/-- A Python call raises TypeError when any keyword argument is not among the
parameters of the called function. -/
def brainMoodSystemCallOk : Bool :=
  brainMoodSystemCallKwargs.all (fun k => moodSystemInitParams.contains k)

/-- EnhancedBrain.__init__ (brain.py lines 18-87). Resolves the
creature-config-dependent fields, then constructs the mood system with the
call EmergentMoodSystem(config=mood_config); a keyword the constructor does
not accept raises TypeError, modelled as an Except.error. -/
def mkEnhancedBrain (creature_id : String)
    (creature_config : Option CreatureConfig)
    (mood_config : Option MoodConfig) : Except String Brain :=
  let starting_health := match creature_config with
    | some c => c.starting_health
    | none => 100
  let starting_energy := match creature_config with
    | some c => c.starting_energy
    | none => 100
  let action_tokens := match creature_config with
    | some c => c.initial_action_tokens
    | none => 10
  let max_tokens := match creature_config with
    | some c => c.max_action_tokens
    | none => 50
  let energy_cost := match creature_config with
    | some c => c.energy_cost_per_step
    | none => 1
  let health_decay := match creature_config with
    | some c => c.health_decay_when_no_energy
    | none => 1/10
  let _ := mood_config
  if brainMoodSystemCallOk then
    Except.ok
      { creature_id := creature_id
        health := starting_health
        energy := starting_energy
        action_tokens := action_tokens
        max_tokens := max_tokens
        max_memory := 20
        energy_cost_per_step := energy_cost
        health_decay_rate := health_decay
        mood_system := MoodSystem.init
        perception_memory := []
        action_values := [] }
  else
    Except.error
      "TypeError: EmergentMoodSystem.__init__ got an unexpected keyword argument config"

/-- EnhancedBrain._calculate_perceptual_surprise (brain.py lines 177-270).
Returns the surprise value and the brain with its perception memory updated:
an empty memory stores the perception and returns the fixed value 0.5;
otherwise the weighted deltas against the most recent stored perception are
combined, divided by 3, the memory is appended (evicting the oldest past
max_memory) and the result is capped at 1. -/
def Brain.calcPerceptualSurprise (b : Brain) (p : Perception) : ℚ × Brain :=
  match b.perception_memory.getLast? with
  | none => (1/2, { b with perception_memory := b.perception_memory ++ [p] })
  | some last =>
      let food_change := |(p.food_count : ℚ) - (last.food_count : ℚ)|
      let creature_change := |(p.creature_count : ℚ) - (last.creature_count : ℚ)|
      let sound_change := |avgSoundAmp p.sound - avgSoundAmp last.sound|
      let surprise :=
        (food_change * (3/10) + creature_change * (3/10) + sound_change * (4/10)) / 3
      let mem1 := b.perception_memory ++ [p]
      let mem2 := if mem1.length > b.max_memory then mem1.drop 1 else mem1
      (min 1 surprise, { b with perception_memory := mem2 })

/-- EnhancedBrain._calculate_total_reward (brain.py lines 272-291). -/
def calcTotalReward (surprise : ℚ) (o : Outcome) : ℚ :=
  let reward := surprise * (1/2)
  let reward :=
    if o.effect = "found_food" then reward + 1
    else if o.effect = "made_sound" ∧ o.creatures_responded > 0 then
      reward + (3/10) * (o.creatures_responded : ℚ)
    else if o.effect = "collision" then reward - (1/5)
    else reward
  if o.near_creatures > 0 then
    reward + (1/10) * (min 3 (o.near_creatures : ℚ))
  else reward

/-- Dict get with default over an association list. -/
def getAssocD (m : List (String × ℚ)) (k : String) (d : ℚ) : ℚ :=
  match m with
  | [] => d
  | (k0, v) :: rest => if k0 = k then v else getAssocD rest k d

/-- Dict membership over an association list. -/
def memAssoc (m : List (String × ℚ)) (k : String) : Bool :=
  match m with
  | [] => false
  | (k0, _) :: rest => k0 = k || memAssoc rest k

/-- Dict assignment d[k] = v over an association list: overwrite in place if
present, append in insertion order if new. -/
def setAssoc (m : List (String × ℚ)) (k : String) (v : ℚ) :
    List (String × ℚ) :=
  match m with
  | [] => [(k, v)]
  | (k0, v0) :: rest =>
      if k0 = k then (k0, v) :: rest else (k0, v0) :: setAssoc rest k v

/-- EnhancedBrain._update_action_values (brain.py lines 293-302):
exponential moving average with alpha = 0.1 from an implicit 0 start. -/
def Brain.updateActionValues (b : Brain) (action : String) (reward : ℚ) :
    Brain :=
  let old := getAssocD b.action_values action 0
  let vals0 := if memAssoc b.action_values action then b.action_values
    else setAssoc b.action_values action 0
  { b with action_values := setAssoc vals0 action ((1 - 1/10) * old + (1/10) * reward) }

/-- EnhancedBrain.get_action_bias (brain.py lines 304-339). Dict assignments
overwrite; the learned action values are then merged additively (scaled by
0.2) in the insertion order of action_values. -/
def Brain.getActionBias (b : Brain) : List (String × ℚ) :=
  let valence := b.mood_system.valence
  let arousal := b.mood_system.arousal
  let biases : List (String × ℚ) := []
  let biases := if arousal > 7/10 then
    setAssoc (setAssoc biases "explore" (3/10)) "make_sound_high" (2/10)
    else biases
  let biases := if arousal < 3/10 then
    setAssoc (setAssoc biases "stay" (3/10)) "listen" (2/10)
    else biases
  let biases := if valence > 3/10 then
    setAssoc (setAssoc biases "make_sound_low" (2/10)) "move_north" (1/10)
    else biases
  let biases := if valence < -(3/10) then
    setAssoc (setAssoc biases "move_south" (2/10)) "stay" (1/10)
    else biases
  b.action_values.foldl
    (fun acc av =>
      if memAssoc acc av.1 then
        setAssoc acc av.1 (getAssocD acc av.1 0 + av.2 * (2/10))
      else setAssoc acc av.1 (av.2 * (2/10)))
    biases

/-- Summary dictionary returned by EnhancedBrain.process_timestep (without
the optional reflection entries, absent when no LLM client exists). -/
structure Summary where
  mood : ℚ × ℚ × ℚ
  surprise : ℚ
  reward : ℚ
  tokens_gained : ℤ
deriving DecidableEq

/-- EnhancedBrain.process_timestep (brain.py lines 89-175), under an absent
LLM client: surprise, reward, situation, mood update, action-value update,
token grant int(surprise * 10) capped at max_tokens, then the survival
bookkeeping (heal and refill on found_food, unconditional energy cost, and
health decay once energy is at or below zero). -/
def Brain.processTimestep (b : Brain) (p : Perception) (action_taken : String)
    (o : Outcome) : Brain × Summary :=
  let (surprise, b1) := b.calcPerceptualSurprise p
  let reward := calcTotalReward surprise o
  let sound_level := avgSoundAmp p.sound
  let situation : Situation :=
    { food_nearby := some (decide (p.food_count > 0))
      creatures_nearby := some (p.creature_count : ℤ)
      sound_level := some sound_level }
  let (mood1, mood_update) := b1.mood_system.processExperience situation reward
  let b2 := { b1 with mood_system := mood1 }
  let b3 := b2.updateActionValues action_taken reward
  let tokens_gained := pyInt (surprise * 10)
  let b4 := { b3 with
    action_tokens := min b3.max_tokens (b3.action_tokens + tokens_gained) }
  let b5 := if o.effect = "found_food" then
      { b4 with health := min 100 (b4.health + 20),
                energy := min 100 (b4.energy + 30) }
    else b4
  let b6 := { b5 with energy := b5.energy - b5.energy_cost_per_step }
  let b7 := { b6 with
    health := b6.health - (if b6.energy ≤ 0 then b6.health_decay_rate else 0) }
  (b7, { mood := mood_update
         surprise := surprise
         reward := reward
         tokens_gained := tokens_gained })

/-! ## Action selector — src/creatures/action_selection.py

With no LLM configured, use_llm is false (api_config.get_action_model() and
get_llm_client() are both falsy), so select_action always falls through to
the probabilistic branch; its one random draw picks from the normalized
distribution. -/

/-- MoodInfluencedActionSelector.base_actions, in source order. -/
def base_actions : List String :=
  ["move_north", "move_south", "move_east", "move_west", "stay", "eat",
   "make_sound_low", "make_sound_high", "listen", "explore"]

/-- Sampling np.random.choice(actions, p=probs) with one uniform draw in
[0, 1): walk the cumulative distribution. -/
def pickByCdf (l : List (String × ℚ)) (draw : ℚ) : String :=
  match l with
  | [] => "stay"
  | [(a, _)] => a
  | (a, p) :: rest => if draw < p then a else pickByCdf rest (draw - p)

/-- MoodInfluencedActionSelector._probabilistic_selection (action_selection.py
lines 54-71): per-action probability max(0.01, 1/len + bias), normalized,
then sampled. -/
def probabilisticSelection (action_biases : List (String × ℚ)) (draw : ℚ) :
    String :=
  let action_probs := base_actions.map fun a =>
    (a, max (1/100) (1 / (base_actions.length : ℚ) + getAssocD action_biases a 0))
  let total := (action_probs.map Prod.snd).sum
  let normalized := action_probs.map fun ap => (ap.1, ap.2 / total)
  pickByCdf normalized draw

/-- MoodInfluencedActionSelector.select_action (action_selection.py lines
29-52), LLM branch disabled as use_llm is false. -/
def selectAction (b : Brain) (p : Perception) (draw : ℚ) : String :=
  let action_biases := b.getActionBias
  let action_biases := if p.food_count > 0 ∧ b.health < 70 then
      setAssoc (setAssoc action_biases "eat" (8/10)) "move_north" (4/10)
    else action_biases
  let action_biases := if b.energy < 20 then
      setAssoc action_biases "stay" (7/10)
    else action_biases
  probabilisticSelection action_biases draw

/-! ## Action-resolution protocol — src/world/non_deterministic.py -/

/-- VALID_ACTIONS (non_deterministic.py lines 12-16). -/
def VALID_ACTIONS : List String :=
  ["move_north", "move_south", "move_east", "move_west",
   "explore", "stay", "eat", "listen",
   "make_sound_low", "make_sound_high"]

structure WorldModel where
  acceptance_rate : ℚ
  world : SimpleWorld
  creature_positions : List (String × (ℤ × ℤ))

/-- NonDeterministicWorldModel._is_valid_position (coordinates are modelled
as integers, so the isinstance checks always pass). -/
def WorldModel.isValidPosition (m : WorldModel) (pos : ℤ × ℤ) : Bool :=
  decide (0 ≤ pos.1) && decide (pos.1 < m.world.width) &&
    decide (0 ≤ pos.2) && decide (pos.2 < m.world.height)

/-- NonDeterministicWorldModel._clamp_position. -/
def WorldModel.clampPosition (m : WorldModel) (pos : ℤ × ℤ) : ℤ × ℤ :=
  (max 0 (min pos.1 (m.world.width - 1)), max 0 (min pos.2 (m.world.height - 1)))

/-- Manhattan distance between two cells. -/
def manhattan (a b : ℤ × ℤ) : ℤ := |a.1 - b.1| + |a.2 - b.2|

/-- Count of entries of the position table other than creature_id whose
position is within the given Manhattan distance of center. -/
def countNearby (table : List (String × (ℤ × ℤ))) (creature_id : String)
    (center : ℤ × ℤ) (radius : ℤ) : ℕ :=
  (table.filter fun e =>
    decide (e.1 ≠ creature_id) && decide (manhattan e.2 center ≤ radius)).length

/-- Dict assignment for the creature position table. -/
def setPos (table : List (String × (ℤ × ℤ))) (k : String) (v : ℤ × ℤ) :
    List (String × (ℤ × ℤ)) :=
  match table with
  | [] => [(k, v)]
  | (k0, v0) :: rest =>
      if k0 = k then (k0, v) :: rest else (k0, v0) :: setPos rest k v

/-- Dict lookup for the creature position table. -/
def lookupPos (table : List (String × (ℤ × ℤ))) (k : String) :
    Option (ℤ × ℤ) :=
  match table with
  | [] => none
  | (k0, v) :: rest => if k0 = k then some v else lookupPos rest k

/-- The movement candidate computed by the first block of _execute_action
(non_deterministic.py lines 145-164). For explore, np.random.choice over
north, south, east, west is modelled by the direction index exploreDir mod 4
in source list order. -/
def moveCandidate (m : WorldModel) (action : String) (x y : ℤ)
    (exploreDir : ℕ) : ℤ × ℤ :=
  if action = "move_north" ∧ y > 0 then (x, y - 1)
  else if action = "move_south" ∧ y < m.world.height - 1 then (x, y + 1)
  else if action = "move_east" ∧ x < m.world.width - 1 then (x + 1, y)
  else if action = "move_west" ∧ x > 0 then (x - 1, y)
  else if action = "explore" then
    match exploreDir % 4 with
    | 0 => if y > 0 then (x, y - 1) else (x, y)
    | 1 => if y < m.world.height - 1 then (x, y + 1) else (x, y)
    | 2 => if x < m.world.width - 1 then (x + 1, y) else (x, y)
    | _ => if x > 0 then (x - 1, y) else (x, y)
  else (x, y)

/-- NonDeterministicWorldModel._execute_action (non_deterministic.py lines
135-243). The action string arriving here is always from VALID_ACTIONS (the
caller degrades unknown names to stay); over that vocabulary the substring
test ("sound" in action) holds exactly for make_sound_low and
make_sound_high, and ("low" in action) distinguishes the two. -/
def WorldModel.executeAction (m : WorldModel) (creature_id action : String)
    (pos : ℤ × ℤ) (exploreDir : ℕ) : Outcome × WorldModel :=
  let x := pos.1
  let y := pos.2
  let cand := moveCandidate m action x y exploreDir
  -- safety re-check of the candidate (lines 166-169)
  let cand := if m.isValidPosition cand then cand else (x, y)
  let moved := cand ≠ (x, y)
  -- obstacle and food checks (lines 171-179), only when the move is real
  let afterObstacle : (ℤ × ℤ) × String :=
    if moved then
      if m.world.grid cand.1 cand.2 = 2 then ((x, y), "collision")
      else if m.world.grid cand.1 cand.2 = 1 then (cand, "found_food")
      else (cand, "none")
    else ((x, y), "none")
  -- creature-occupancy check (lines 181-186), against the same candidate,
  -- still guarded by the original moved test
  let afterCreature : (ℤ × ℤ) × String :=
    if moved ∧ (m.creature_positions.any fun e =>
        decide (e.1 ≠ creature_id) && decide (e.2 = afterObstacle.1)) then
      ((x, y), "collision")
    else afterObstacle
  let newPos := afterCreature.1
  let effect1 := afterCreature.2
  -- eat (lines 188-195): clears food at the current, not candidate, cell
  let eatHit := action = "eat" ∧ m.world.grid x y = 1
  let world1 := if eatHit then
      { m.world with grid := setCell m.world.grid x y 0 }
    else m.world
  let effect2 := if eatHit then "found_food" else effect1
  -- sound actions (lines 197-219)
  let isSound := action = "make_sound_low" ∨ action = "make_sound_high"
  let freq : ℚ := if action = "make_sound_low" then 3/10 else 7/10
  let world2 := if isSound then world1.updateSound x y freq (8/10) else world1
  let effect3 := if isSound then "made_sound" else effect2
  let responders := if isSound then
      countNearby m.creature_positions creature_id (x, y) 3
    else 0
  -- social proximity count (lines 221-233): measured at (x, y)
  let near := countNearby m.creature_positions creature_id (x, y) 2
  let positions1 := setPos m.creature_positions creature_id newPos
  let m1 := { m with world := world2, creature_positions := positions1 }
  (⟨true, newPos, effect3,
    some (world2.getLocalView newPos.1 newPos.2 5), responders, near⟩, m1)

/-- NonDeterministicWorldModel.propose_action (non_deterministic.py lines
48-97): reject falsy ids, degrade unknown actions to stay, clamp an invalid
current position, register the current position, then draw the acceptance
random; a rejection returns action_blocked without executing. -/
def WorldModel.proposeAction (m : WorldModel) (creature_id action : String)
    (current_pos : ℤ × ℤ) (accDraw : ℚ) (exploreDir : ℕ) :
    Outcome × WorldModel :=
  if creature_id = "" then
    (⟨false, current_pos, "invalid_id", none, 0, 0⟩, m)
  else
    let action := if VALID_ACTIONS.contains action then action else "stay"
    let current_pos := if m.isValidPosition current_pos then current_pos
      else m.clampPosition current_pos
    let m1 := { m with
      creature_positions := setPos m.creature_positions creature_id current_pos }
    let accepted := accDraw < m1.acceptance_rate
    if accepted then
      let (result, m2) := m1.executeAction creature_id action current_pos
        exploreDir
      (result, m2)
    else
      (⟨false, current_pos, "action_blocked", none, 0, 0⟩, m1)

/-! ## Simulation engine — src/simulation/engine.py -/

/-- Creature roster record (the dictionaries create_creatures builds and
SimulationEngine.add_creatures stores). -/
structure Creature where
  id : String
  brain : Brain
  position : ℤ × ℤ
  alive : Bool

structure EngineState where
  world_model : WorldModel
  creatures : List Creature
  step_count : ℕ

/-- Events appended by SimulationEngine.step. The action event carries the
fields the source event dict carries (brain_update is the summary, mood the
post-update valence and arousal). -/
inductive Event where
  | action (step : ℕ) (creature_id : String) (act : String)
      (old_position new_position : ℤ × ℤ) (outcome : Outcome)
      (brain_update : Summary) (mood : ℚ × ℚ) : Event
  | death (step : ℕ) (creature_id : String) (position : ℤ × ℤ) : Event
  | performance (step : ℕ) : Event

/-- Whether an event names the given creature id. -/
def Event.mentions (e : Event) (cid : String) : Prop :=
  match e with
  | .action _ i _ _ _ _ _ _ => i = cid
  | .death _ i _ => i = cid
  | .performance _ => False

instance (e : Event) (cid : String) : Decidable (e.mentions cid) := by
  unfold Event.mentions; cases e <;> infer_instance

/-- The random draws one engine step consumes, threaded explicitly: per
creature index, the action-selection draw, the acceptance draw and the
explore direction; for the world update, the respawn draw and the food
placement samples. -/
structure StepRand where
  sel : ℕ → ℚ
  acc : ℕ → ℚ
  dir : ℕ → ℕ
  respawnDraw : ℚ
  foodSamples : ℕ → ℤ × ℤ

/-- SimulationEngine._process_perception (engine.py lines 145-161). -/
def processPerception (lv : LocalView) : Perception :=
  { visual := lv.visual
    sound := lv.sound
    food_count := lv.food_count
    obstacle_count := lv.obstacle_count
    creature_count := lv.creature_count }

/-- Perception the engine builds for a creature: get_local_view at its
position (default radius 5) passed through _process_perception. -/
def enginePerceive (m : WorldModel) (c : Creature) : Perception :=
  processPerception (m.world.getLocalView c.position.1 c.position.2 5)

/-- Body of the per-creature loop of SimulationEngine.step (engine.py lines
64-121): dead creatures are skipped entirely; a live creature is perceived,
selects an action, proposes it to the world, updates its brain, and is
marked dead when the resulting health is at or below zero. -/
def processCreature (m : WorldModel) (step_count : ℕ) (r : StepRand)
    (idx : ℕ) (c : Creature) : WorldModel × Creature × List Event :=
  if c.alive then
    let perception := enginePerceive m c
    let act := selectAction c.brain perception (r.sel idx)
    let (outcome, m1) := m.proposeAction c.id act c.position (r.acc idx)
      (r.dir idx)
    let old_position := c.position
    let position1 := outcome.new_position
    let (brain1, summary) := c.brain.processTimestep perception act outcome
    let ev : Event := .action step_count c.id act old_position position1
      outcome summary (brain1.mood_system.valence, brain1.mood_system.arousal)
    if brain1.health ≤ 0 then
      (m1, { c with brain := brain1, position := position1, alive := false },
        [ev, .death step_count c.id position1])
    else
      (m1, { c with brain := brain1, position := position1 }, [ev])
  else (m, c, [])

/-- Sequential processing of the roster in order, threading the shared world
model, as the for loop of SimulationEngine.step does. -/
def processRoster (step_count : ℕ) (r : StepRand) :
    WorldModel → ℕ → List Creature → WorldModel × List Creature × List Event
  | m, _, [] => (m, [], [])
  | m, idx, c :: rest =>
      let (m1, c1, evs1) := processCreature m step_count r idx c
      let (m2, rest1, evs2) := processRoster step_count r m1 (idx + 1) rest
      (m2, c1 :: rest1, evs1 ++ evs2)

/-- SimulationEngine.step (engine.py lines 53-143): process every creature in
roster order, then advance the world physics, increment the step counter
once, and append the performance event. -/
def engineStep (s : EngineState) (r : StepRand) : EngineState × List Event :=
  let (m1, creatures1, evs) :=
    processRoster s.step_count r s.world_model 0 s.creatures
  let world1 := m1.world.step r.respawnDraw r.foodSamples
  ({ world_model := { m1 with world := world1 }
     creatures := creatures1
     step_count := s.step_count + 1 },
   evs ++ [.performance (s.step_count + 1)])

/-- Iterated engine steps, accumulating all events. -/
def engineSteps : EngineState → List StepRand → EngineState × List Event
  | s, [] => (s, [])
  | s, r :: rs =>
      let (s1, evs1) := engineStep s r
      let (s2, evs2) := engineSteps s1 rs
      (s2, evs1 ++ evs2)

/-! ## Definitions taken from the claim wording, for comparison

These three definitions follow the words of spec sentences (not the source);
each is compared against the source-derived behavior in the corresponding
theorem. -/

/-- Modelled from the spec: the count of live agents whose positions lie
inside the clipped local-view window of a creature (the overlay the spec
says the caller supplies on top of get_local_view). -/
def specLiveAgentsInView (w : SimpleWorld) (roster : List Creature)
    (x y radius : ℤ) : ℕ :=
  let x1 := max 0 (x - radius)
  let x2 := min w.width (x + radius + 1)
  let y1 := max 0 (y - radius)
  let y2 := min w.height (y + radius + 1)
  (roster.filter fun c =>
    c.alive && decide (x1 ≤ c.position.1) && decide (c.position.1 < x2) &&
      decide (y1 ≤ c.position.2) && decide (c.position.2 < y2)).length

/-- Modelled from the spec: near_creatures as the claim states it — other
tracked agents within Manhattan distance 2 of the final (post-move)
position. -/
def specNearCreaturesFinal (table : List (String × (ℤ × ℤ)))
    (creature_id : String) (finalPos : ℤ × ℤ) : ℕ :=
  countNearby table creature_id finalPos 2

/-- Modelled from the spec: the no-prior-perception surprise as the claim
states it — each delta taken against the fixed moderate value 0.5, then
weighted, divided by 3 and clamped to [0, 1]. -/
def specNoPriorSurprise (p : Perception) : ℚ :=
  min 1 ((|(p.food_count : ℚ) - 1/2| * (3/10) +
    |(p.creature_count : ℚ) - 1/2| * (3/10) +
    |avgSoundAmp p.sound - 1/2| * (4/10)) / 3)

/-! ## Concrete sample states used by witnesses and counterexamples -/

/-- Empty 20 x 20 world with the configuration defaults (rational constants
are written with mkRat so that concrete runs reduce in the kernel). -/
def sampleWorld : SimpleWorld :=
  { width := 20
    height := 20
    food_spawn_rate := mkRat 1 10
    food_respawn_probability := mkRat 1 100
    food_respawn_amount := mkRat 1 200
    obstacle_density := mkRat 1 20
    sound_decay_rate := mkRat 9 10
    grid := fun _ _ => 0
    sound_grid := fun _ _ => (0, 0) }

/-- World model over the sample world with one registered neighbor at (3, 0)
and the default acceptance rate. -/
def sampleModel : WorldModel :=
  { acceptance_rate := mkRat 9 10
    world := sampleWorld
    creature_positions := [("b", (3, 0))] }

/-- Brain state with the default field values of EnhancedBrain.__init__. -/
def sampleBrain (creature_id : String) : Brain :=
  { creature_id := creature_id
    health := 100
    energy := 100
    action_tokens := 10
    max_tokens := 50
    max_memory := 20
    energy_cost_per_step := 1
    health_decay_rate := mkRat 1 10
    mood_system := MoodSystem.init
    perception_memory := []
    action_values := [] }

/-- Perception of a silent, empty 1 x 1 window. -/
def samplePerception : Perception :=
  { visual := [[0]]
    sound := [[(0, 0)]]
    food_count := 0
    obstacle_count := 0
    creature_count := 0 }

/-- Deterministic draw bundle for one engine step. -/
def sampleStepRand : StepRand :=
  { sel := fun _ => 0
    acc := fun _ => 0
    dir := fun _ => 0
    respawnDraw := 1
    foodSamples := fun _ => (0, 0) }

/-- Dead roster entry used to exercise death finality. -/
def sampleDeadCreature : Creature :=
  { id := "a", brain := sampleBrain "a", position := (2, 2), alive := false }

/-- Live roster entry processed alongside the dead one. -/
def sampleLiveCreature : Creature :=
  { id := "b", brain := sampleBrain "b", position := (3, 3), alive := true }

/-- Engine state with a dead creature at index 0 and a live one at index 1. -/
def sampleEngineState : EngineState :=
  { world_model :=
      { acceptance_rate := mkRat 9 10
        world := sampleWorld
        creature_positions := [] }
    creatures := [sampleDeadCreature, sampleLiveCreature]
    step_count := 0 }

/-- Roster of two live creatures at (2, 2) and (3, 3) over the sample world,
used to exhibit the missing creature-count overlay. -/
def sampleLiveRoster : List Creature :=
  [ { id := "a", brain := sampleBrain "a", position := (2, 2), alive := true }
  , { id := "b", brain := sampleBrain "b", position := (3, 3), alive := true } ]

/-- Tiny 1 x 3 variant of the sample world, where truncation and rounding of
width * height * density differ. -/
def sampleWorld13 : SimpleWorld :=
  { sampleWorld with width := 1, height := 3 }

/-- World model whose position table registers both live roster members. -/
def sampleModelTwoLive : WorldModel :=
  { acceptance_rate := mkRat 9 10
    world := sampleWorld
    creature_positions := [("a", (2, 2)), ("b", (3, 3))] }

/-! ## Helper lemmas -/

theorem setCell_same {α : Type} (g : ℤ → ℤ → α) (x y : ℤ) (v : α) :
    setCell g x y v x y = v := by simp [setCell]

theorem setCell_other {α : Type} (g : ℤ → ℤ → α) (x y i j : ℤ) (v : α)
    (h : ¬(i = x ∧ j = y)) : setCell g x y v i j = g i j := by
  simp only [setCell, if_neg h]

theorem lookupPos_setPos_self (t : List (String × (ℤ × ℤ))) (k : String)
    (v : ℤ × ℤ) : lookupPos (setPos t k v) k = some v := by
  induction t with
  | nil => simp [setPos, lookupPos]
  | cons e rest ih =>
      by_cases h : e.1 = k
      · simp [setPos, lookupPos, h]
      · simp [setPos, lookupPos, h, ih]

/-! ## Mood bounds (C5 machinery) -/

theorem moodBounds_processExperience (m : MoodSystem) (s : Situation) (r : ℚ)
    (hb : moodBounds m) (hf : 0 ≤ m.fast_learning) :
    moodBounds (m.processExperience s r).1 ∧
      (m.processExperience s r).1.fast_learning = m.fast_learning := by
  obtain ⟨hv1, hv2, ha1, ha2⟩ := hb
  have hnn : 0 ≤ |r - m.expected_reward| * m.fast_learning :=
    mul_nonneg (abs_nonneg _) hf
  have h0 : (0 : ℚ) ≤ min 1 (m.arousal + |r - m.expected_reward| * m.fast_learning) :=
    le_min (by norm_num) (by linarith)
  have h1 : min 1 (m.arousal + |r - m.expected_reward| * m.fast_learning) ≤ 1 :=
    min_le_left _ _
  refine ⟨⟨?_, ?_, ?_, ?_⟩, rfl⟩
  · exact le_max_left _ _
  · exact max_le (by norm_num) (min_le_left _ _)
  · show (0 : ℚ) ≤ min 1 (m.arousal + |r - m.expected_reward| * m.fast_learning) * (99/100)
    positivity
  · show min 1 (m.arousal + |r - m.expected_reward| * m.fast_learning) * (99/100) ≤ 1
    nlinarith

theorem moodBounds_processList (l : List (Situation × ℚ)) :
    ∀ m : MoodSystem, moodBounds m → 0 ≤ m.fast_learning →
      moodBounds (m.processList l) := by
  induction l with
  | nil => intro m hb _; simpa [MoodSystem.processList] using hb
  | cons e rest ih =>
      intro m hb hf
      have h := moodBounds_processExperience m e.1 e.2 hb hf
      have hstep : moodBounds (m.processExperience e.1 e.2).1 := h.1
      have hf1 : 0 ≤ (m.processExperience e.1 e.2).1.fast_learning := h.2 ▸ hf
      simpa [MoodSystem.processList] using ih _ hstep hf1

/-- C5: for every sequence of process_experience calls with arbitrary
situations and rewards, starting from the freshly constructed mood system,
valence stays in [-1, 1] and arousal stays in [0, 1] after every call
(every prefix of calls is itself such a sequence); moreover, on every call
the arousal is first increased by the absolute prediction error times the
fast rate (capped at 1) and then multiplied by the decay factor 0.99. -/
theorem mood_bounds_invariant (l : List (Situation × ℚ)) :
    moodBounds (MoodSystem.init.processList l) ∧
    ∀ (m : MoodSystem) (s : Situation) (r : ℚ),
      (m.processExperience s r).1.arousal =
        min 1 (m.arousal + |r - m.expected_reward| * m.fast_learning) * (99/100) := by
  constructor
  · refine moodBounds_processList l MoodSystem.init ?_ (by norm_num [MoodSystem.init])
    refine ⟨?_, ?_, ?_, ?_⟩ <;> norm_num [MoodSystem.init]
  · intro m s r
    rfl

/-- C1: the claim that an AgentController (EnhancedBrain) can be constructed
for every mood configuration (including an absent one), with its mood system
carrying the configured or default rate constants, fails on the code:
EnhancedBrain.__init__ calls EmergentMoodSystem(config=mood_config) while
EmergentMoodSystem.__init__ accepts no parameter, so every construction
raises TypeError, for every creature and mood configuration. -/
theorem brain_construction_raises (creature_id : String)
    (cc : Option CreatureConfig) (mc : Option MoodConfig) :
    mkEnhancedBrain creature_id cc mc =
      Except.error
        "TypeError: EmergentMoodSystem.__init__ got an unexpected keyword argument config" := by
  rfl

/-- C4: when the uniform acceptance draw rejects a proposed action (the draw
is not below the acceptance rate), the call returns effect action_blocked
with the current (in-bounds) position unchanged, not accepted, and the world
— cell grid and sound field — is untouched by the call. -/
theorem rejected_action_blocked (m : WorldModel) (creature_id action : String)
    (pos : ℤ × ℤ) (accDraw : ℚ) (exploreDir : ℕ)
    (hid : creature_id ≠ "") (hpos : m.isValidPosition pos = true)
    (hrej : ¬ accDraw < m.acceptance_rate) :
    (m.proposeAction creature_id action pos accDraw exploreDir).1 =
      ⟨false, pos, "action_blocked", none, 0, 0⟩ ∧
    (m.proposeAction creature_id action pos accDraw exploreDir).2.world =
      m.world := by
  unfold WorldModel.proposeAction
  simp only [if_neg hid, hpos, if_pos rfl, if_true]
  simp [hrej]

/-- Witness for rejected_action_blocked: a concrete rejected stay proposal at
(3, 3) in the sample model. -/
theorem rejected_action_blocked_witness :
    (sampleModel.proposeAction "a" "stay" (3, 3) (mkRat 95 100) 0).1 =
      ⟨false, (3, 3), "action_blocked", none, 0, 0⟩ ∧
    (sampleModel.proposeAction "a" "stay" (3, 3) (mkRat 95 100) 0).2.world =
      sampleModel.world := by
  have h := rejected_action_blocked sampleModel "a" "stay" (3, 3) (mkRat 95 100) 0
    (by decide) (by decide) (by decide)
  exact h

theorem executeAction_table (m : WorldModel) (creature_id action : String)
    (pos : ℤ × ℤ) (exploreDir : ℕ) :
    lookupPos
        (m.executeAction creature_id action pos exploreDir).2.creature_positions
        creature_id =
      some (m.executeAction creature_id action pos exploreDir).1.new_position := by
  unfold WorldModel.executeAction
  exact lookupPos_setPos_self _ _ _

/-- C10: for every propose_action call with a valid (non-falsy) creature id,
the shared position table entry for that id afterwards equals the returned
new_position — on the rejected path (registered current position returned
unchanged) as well as on the executed path (final position written last). -/
theorem position_table_tracks (m : WorldModel) (creature_id action : String)
    (pos : ℤ × ℤ) (accDraw : ℚ) (exploreDir : ℕ) (hid : creature_id ≠ "") :
    lookupPos
        (m.proposeAction creature_id action pos accDraw
          exploreDir).2.creature_positions creature_id =
      some (m.proposeAction creature_id action pos accDraw
        exploreDir).1.new_position := by
  unfold WorldModel.proposeAction
  simp only [if_neg hid]
  by_cases hval : m.isValidPosition pos = true
  · simp only [hval, if_true]
    by_cases hacc : accDraw < m.acceptance_rate
    · simpa [hacc] using executeAction_table _ creature_id _ pos exploreDir
    · simpa [hacc] using lookupPos_setPos_self m.creature_positions creature_id pos
  · simp only [Bool.not_eq_true] at hval
    simp only [hval, Bool.false_eq_true, if_false]
    by_cases hacc : accDraw < m.acceptance_rate
    · simpa [hacc] using
        executeAction_table _ creature_id _ (m.clampPosition pos) exploreDir
    · simpa [hacc] using
        lookupPos_setPos_self m.creature_positions creature_id (m.clampPosition pos)

/-- Witness for position_table_tracks: a concrete accepted move_east from
(0, 0) in the sample model; the table entry matches the returned position. -/
theorem position_table_tracks_witness :
    lookupPos
        (sampleModel.proposeAction "a" "move_east" (0, 0) 0 0).2.creature_positions
        "a" =
      some (sampleModel.proposeAction "a" "move_east" (0, 0) 0 0).1.new_position := by
  exact position_table_tracks sampleModel "a" "move_east" (0, 0) 0 0 (by decide)

/-! ## Sound propagation (C7 machinery) -/

theorem soundPropStep_other (w : SimpleWorld) (x y : ℤ) (f a : ℚ)
    (g : ℤ → ℤ → ℚ × ℚ) (d : ℤ × ℤ) (i j : ℤ)
    (h : ¬(i = x + d.1 ∧ j = y + d.2)) :
    soundPropStep w x y f a g d i j = g i j := by
  unfold soundPropStep
  split
  · split
    · split
      · exact setCell_other _ _ _ _ _ _ h
      · rfl
    · rfl
  · rfl

theorem soundPropStep_center (w : SimpleWorld) (x y : ℤ) (f a : ℚ)
    (g : ℤ → ℤ → ℚ × ℚ) (d : ℤ × ℤ) (hd : d.1 = 0 ∧ d.2 = 0) :
    soundPropStep w x y f a g d = g := by
  unfold soundPropStep
  simp [hd.1, hd.2]

theorem soundPropStep_self (w : SimpleWorld) (x y : ℤ) (f a : ℚ)
    (g : ℤ → ℤ → ℚ × ℚ) (d : ℤ × ℤ)
    (hb : w.inBoundsB (x + d.1) (y + d.2) = true)
    (hd : d.1 ≠ 0 ∨ d.2 ≠ 0) :
    soundPropStep w x y f a g d (x + d.1) (y + d.2) =
      if a * (1/2) > (g (x + d.1) (y + d.2)).2 then (f, a * (1/2))
      else g (x + d.1) (y + d.2) := by
  unfold soundPropStep
  rw [if_pos hb, if_pos hd]
  split
  · exact setCell_same _ _ _ _
  · rfl

theorem foldl_soundPropStep_untouched (w : SimpleWorld) (x y : ℤ) (f a : ℚ)
    (l : List (ℤ × ℤ)) (i j : ℤ)
    (h : ∀ d ∈ l, ¬(i = x + d.1 ∧ j = y + d.2) ∨ (d.1 = 0 ∧ d.2 = 0)) :
    ∀ g : ℤ → ℤ → ℚ × ℚ,
      (l.foldl (soundPropStep w x y f a) g) i j = g i j := by
  induction l with
  | nil => intro g; rfl
  | cons d rest ih =>
      intro g
      have hd := h d (List.mem_cons_self d rest)
      have hrest : ∀ d ∈ rest, ¬(i = x + d.1 ∧ j = y + d.2) ∨ (d.1 = 0 ∧ d.2 = 0) :=
        fun e he => h e (List.mem_cons_of_mem d he)
      rw [List.foldl_cons, ih hrest]
      rcases hd with hne | hc
      · exact soundPropStep_other w x y f a g d i j hne
      · rw [soundPropStep_center w x y f a g d hc]

theorem updateSound_neighbor_val (w : SimpleWorld) (x y dx dy : ℤ) (f a : ℚ)
    (hc : w.inBoundsB x y = true)
    (hmem : (dx, dy) ∈ neighborOffsets) (hd : ¬(dx = 0 ∧ dy = 0))
    (hn : w.inBoundsB (x + dx) (y + dy) = true) :
    (w.updateSound x y f a).sound_grid (x + dx) (y + dy) =
      if a * (1/2) > (w.sound_grid (x + dx) (y + dy)).2 then (f, a * (1/2))
      else w.sound_grid (x + dx) (y + dy) := by
  obtain ⟨l1, l2, hsplit⟩ := List.append_of_mem hmem
  have hnd : neighborOffsets.Nodup := by decide
  rw [hsplit] at hnd
  have hnotl1 : (dx, dy) ∉ l1 := by
    intro hmem1
    obtain ⟨-, -, hdisj⟩ := List.nodup_append.mp hnd
    exact hdisj hmem1 (List.mem_cons_self _ _)
  have hnotl2 : (dx, dy) ∉ l2 := by
    obtain ⟨-, hnd2, -⟩ := List.nodup_append.mp hnd
    exact (List.nodup_cons.mp hnd2).1
  unfold SimpleWorld.updateSound
  rw [if_pos hc]
  show neighborOffsets.foldl (soundPropStep w x y f a)
      (setCell w.sound_grid x y (f, a)) (x + dx) (y + dy) = _
  rw [hsplit, List.foldl_append, List.foldl_cons]
  have hl1 : ∀ d ∈ l1, ¬(x + dx = x + d.1 ∧ y + dy = y + d.2) ∨ (d.1 = 0 ∧ d.2 = 0) := by
    intro d hdm
    left
    intro hcell
    apply hnotl1
    have h1 : d.1 = dx := by omega
    have h2 : d.2 = dy := by omega
    have : d = (dx, dy) := by
      cases d; simp_all
    exact this ▸ hdm
  have hl2 : ∀ d ∈ l2, ¬(x + dx = x + d.1 ∧ y + dy = y + d.2) ∨ (d.1 = 0 ∧ d.2 = 0) := by
    intro d hdm
    left
    intro hcell
    apply hnotl2
    have h1 : d.1 = dx := by omega
    have h2 : d.2 = dy := by omega
    have : d = (dx, dy) := by
      cases d; simp_all
    exact this ▸ hdm
  rw [foldl_soundPropStep_untouched w x y f a l2 _ _ hl2]
  have hdor : (dx, dy).1 ≠ 0 ∨ (dx, dy).2 ≠ 0 := by
    by_contra hno
    push_neg at hno
    exact hd ⟨hno.1, hno.2⟩
  rw [soundPropStep_self w x y f a _ (dx, dy) hn hdor]
  rw [foldl_soundPropStep_untouched w x y f a l1 _ _ hl1]
  have hcenter : ¬(x + dx = x ∧ y + dy = y) := by
    intro hcc
    exact hd ⟨by omega, by omega⟩
  rw [setCell_other _ _ _ _ _ _ hcenter]

theorem updateSound_center (w : SimpleWorld) (x y : ℤ) (f a : ℚ)
    (hc : w.inBoundsB x y = true) :
    (w.updateSound x y f a).sound_grid x y = (f, a) := by
  unfold SimpleWorld.updateSound
  rw [if_pos hc]
  show neighborOffsets.foldl (soundPropStep w x y f a)
      (setCell w.sound_grid x y (f, a)) x y = _
  have h : ∀ d ∈ neighborOffsets, ¬(x = x + d.1 ∧ y = y + d.2) ∨ (d.1 = 0 ∧ d.2 = 0) := by
    intro d hdm
    by_cases hz : d.1 = 0 ∧ d.2 = 0
    · right; exact hz
    · left; intro hcc; exact hz ⟨by omega, by omega⟩
  rw [foldl_soundPropStep_untouched w x y f a neighborOffsets _ _ h]
  exact setCell_same _ _ _ _

/-- C7: update_sound at an in-bounds position sets the field at (x, y) to
(frequency, amplitude); each in-bounds neighbor ends at amplitude
max(current, amplitude * 0.5), taking the emitted frequency exactly when
this is a strict increase and staying untouched otherwise (so an already
louder neighbor is never decreased); in particular with amplitude 1 a
previously silent neighbor ends at exactly (frequency, 0.5). -/
theorem update_sound_propagation (w : SimpleWorld) (x y dx dy : ℤ) (f a : ℚ)
    (hc : w.inBoundsB x y = true)
    (hmem : (dx, dy) ∈ neighborOffsets) (hd : ¬(dx = 0 ∧ dy = 0))
    (hn : w.inBoundsB (x + dx) (y + dy) = true) :
    ((w.updateSound x y f a).sound_grid x y = (f, a)) ∧
    (((w.updateSound x y f a).sound_grid (x + dx) (y + dy)).2 =
      max ((w.sound_grid (x + dx) (y + dy)).2) (a * (1/2))) ∧
    (a * (1/2) > (w.sound_grid (x + dx) (y + dy)).2 →
      (w.updateSound x y f a).sound_grid (x + dx) (y + dy) = (f, a * (1/2))) ∧
    (¬ a * (1/2) > (w.sound_grid (x + dx) (y + dy)).2 →
      (w.updateSound x y f a).sound_grid (x + dx) (y + dy) =
        w.sound_grid (x + dx) (y + dy)) ∧
    (a = 1 ∧ (w.sound_grid (x + dx) (y + dy)).2 = 0 →
      (w.updateSound x y f a).sound_grid (x + dx) (y + dy) = (f, 1/2)) := by
  have hval := updateSound_neighbor_val w x y dx dy f a hc hmem hd hn
  refine ⟨updateSound_center w x y f a hc, ?_, ?_, ?_, ?_⟩
  · rw [hval]
    by_cases hcmp : a * (1/2) > (w.sound_grid (x + dx) (y + dy)).2
    · rw [if_pos hcmp]
      exact (max_eq_right (le_of_lt hcmp)).symm
    · rw [if_neg hcmp]
      push_neg at hcmp
      exact (max_eq_left hcmp).symm
  · intro hcmp; rw [hval, if_pos hcmp]
  · intro hcmp; rw [hval, if_neg hcmp]
  · rintro ⟨ha, hz⟩
    have hcmp : a * (1/2) > (w.sound_grid (x + dx) (y + dy)).2 := by
      rw [ha, hz]; norm_num
    rw [hval, if_pos hcmp, ha]
    norm_num

/-- Witness for update_sound_propagation: emission of amplitude 1 at (5, 5)
of the silent sample world; the east neighbor (6, 5) ends at exactly
frequency 0.7, amplitude 0.5. -/
theorem update_sound_propagation_witness :
    ((sampleWorld.updateSound 5 5 (7/10) 1).sound_grid 5 5 = (7/10, 1)) ∧
    ((sampleWorld.updateSound 5 5 (7/10) 1).sound_grid (5 + 1) (5 + 0) =
      (7/10, 1/2)) := by
  have h := update_sound_propagation sampleWorld 5 5 1 0 (7/10) 1
    (by decide) (by decide) (by decide) (by decide)
  refine ⟨h.1, ?_⟩
  refine h.2.2.2.2 ⟨rfl, ?_⟩
  rfl

/-! ## Social proximity count (C3) -/

theorem filter_setPos (p : String × (ℤ × ℤ) → Bool)
    (t : List (String × (ℤ × ℤ))) (k : String) (v : ℤ × ℤ)
    (hp : ∀ x, p (k, x) = false) :
    (setPos t k v).filter p = t.filter p := by
  induction t with
  | nil => simp [setPos, hp]
  | cons e rest ih =>
      by_cases h : e.1 = k
      · have he : p e = false := by
          have h2 := hp e.2
          rw [← h] at h2
          simpa using h2
        have hv : p (e.1, v) = false := by rw [h]; exact hp v
        simp [setPos, h, List.filter_cons, he, hv, hp]
      · simp [setPos, h, List.filter_cons, ih]

theorem countNearby_setPos_self (t : List (String × (ℤ × ℤ))) (k : String)
    (v : ℤ × ℤ) (c : ℤ × ℤ) (r : ℤ) :
    countNearby (setPos t k v) k c r = countNearby t k c r := by
  unfold countNearby
  rw [filter_setPos]
  intro x
  simp

/-- C3 counterexample: acceptance draw 0 accepts move_east for creature a at
(0, 0) in the sample model, whose table holds creature b at (3, 0); the
returned near_creatures is 0 (the code counts at the pre-move position,
distance 3), while the claimed count at the final position (1, 0) is 1. -/
theorem near_creatures_counterexample :
    ((sampleModel.proposeAction "a" "move_east" (0, 0) 0 0).1.near_creatures = 0) ∧
    ((sampleModel.proposeAction "a" "move_east" (0, 0) 0 0).1.new_position = (1, 0)) ∧
    (specNearCreaturesFinal
        (sampleModel.proposeAction "a" "move_east" (0, 0) 0 0).2.creature_positions
        "a" (1, 0) = 1) ∧
    (0 : ℕ) ≠ 1 := by
  refine ⟨by decide, by decide, by decide, by decide⟩

/-- C3 amended: for every accepted and executed action, the result carries a
near_creatures field equal to the number of other tracked agents within
Manhattan distance 2 of the agent's current (pre-move) position, regardless
of which action was taken. -/
theorem near_creatures_at_current (m : WorldModel) (creature_id action : String)
    (pos : ℤ × ℤ) (accDraw : ℚ) (exploreDir : ℕ)
    (hid : creature_id ≠ "") (hpos : m.isValidPosition pos = true)
    (hacc : accDraw < m.acceptance_rate) :
    (m.proposeAction creature_id action pos accDraw
        exploreDir).1.near_creatures =
      countNearby m.creature_positions creature_id pos 2 := by
  unfold WorldModel.proposeAction WorldModel.executeAction
  simp only [if_neg hid, hpos, if_pos rfl, if_true, hacc]
  exact countNearby_setPos_self m.creature_positions creature_id pos pos 2

/-- Witness for near_creatures_at_current: the accepted move_east of the
counterexample input; both sides evaluate to 0 on the sample model. -/
theorem near_creatures_at_current_witness :
    (sampleModel.proposeAction "a" "move_east" (0, 0) 0 0).1.near_creatures =
      countNearby sampleModel.creature_positions "a" (0, 0) 2 ∧
    countNearby sampleModel.creature_positions "a" (0, 0) 2 = 0 := by
  refine ⟨near_creatures_at_current sampleModel "a" "move_east" (0, 0) 0 0
    (by decide) (by decide) (by norm_num [sampleModel]), by decide⟩

/-! ## Perceptual surprise (C8) -/

/-- C8 counterexample: a brain with empty perception memory processing the
silent, empty perception returns the fixed surprise 0.5, while the claimed
deltas-against-0.5 formula evaluates to 1/6 on the same input. -/
theorem first_surprise_counterexample :
    ((sampleBrain "a").calcPerceptualSurprise samplePerception).1 = 1/2 ∧
    specNoPriorSurprise samplePerception = 1/6 ∧
    (1/2 : ℚ) ≠ 1/6 := by
  refine ⟨rfl, ?_, by norm_num⟩
  unfold specNoPriorSurprise samplePerception avgSoundAmp listMean
  norm_num [min_def, abs_of_nonpos]

/-- C8 amended: when a prior perception exists, the per-step surprise equals
(0.3|dfood| + 0.3|dcreatures| + 0.4|dsound|)/3 with deltas against the most
recent stored perception, capped at 1 and nonnegative (hence in [0, 1]);
when no prior perception exists, the surprise is the fixed moderate value
0.5 (no deltas are computed). -/
theorem surprise_formula (b : Brain) (p : Perception) :
    (b.perception_memory = [] → (b.calcPerceptualSurprise p).1 = 1/2) ∧
    (∀ last, b.perception_memory.getLast? = some last →
      (b.calcPerceptualSurprise p).1 =
        min 1 ((|(p.food_count : ℚ) - (last.food_count : ℚ)| * (3/10) +
          |(p.creature_count : ℚ) - (last.creature_count : ℚ)| * (3/10) +
          |avgSoundAmp p.sound - avgSoundAmp last.sound| * (4/10)) / 3) ∧
      0 ≤ (b.calcPerceptualSurprise p).1 ∧
      (b.calcPerceptualSurprise p).1 ≤ 1) := by
  constructor
  · intro hmem
    unfold Brain.calcPerceptualSurprise
    rw [hmem]
    rfl
  · intro last hlast
    have hform : (b.calcPerceptualSurprise p).1 =
        min 1 ((|(p.food_count : ℚ) - (last.food_count : ℚ)| * (3/10) +
          |(p.creature_count : ℚ) - (last.creature_count : ℚ)| * (3/10) +
          |avgSoundAmp p.sound - avgSoundAmp last.sound| * (4/10)) / 3) := by
      unfold Brain.calcPerceptualSurprise
      rw [hlast]
    refine ⟨hform, ?_, ?_⟩
    · rw [hform]
      have h1 : (0:ℚ) ≤ |(p.food_count : ℚ) - (last.food_count : ℚ)| * (3/10) :=
        mul_nonneg (abs_nonneg _) (by norm_num)
      have h2 : (0:ℚ) ≤ |(p.creature_count : ℚ) - (last.creature_count : ℚ)| * (3/10) :=
        mul_nonneg (abs_nonneg _) (by norm_num)
      have h3 : (0:ℚ) ≤ |avgSoundAmp p.sound - avgSoundAmp last.sound| * (4/10) :=
        mul_nonneg (abs_nonneg _) (by norm_num)
      have : (0:ℚ) ≤ (|(p.food_count : ℚ) - (last.food_count : ℚ)| * (3/10) +
          |(p.creature_count : ℚ) - (last.creature_count : ℚ)| * (3/10) +
          |avgSoundAmp p.sound - avgSoundAmp last.sound| * (4/10)) / 3 := by
        positivity
      exact le_min (by norm_num) this
    · rw [hform]
      exact min_le_left _ _

/-- Witness for surprise_formula: the empty-memory branch on the sample
brain, and the prior branch on a brain remembering the sample perception. -/
theorem surprise_formula_witness :
    ((sampleBrain "a").calcPerceptualSurprise samplePerception).1 = 1/2 ∧
    (({ sampleBrain "a" with
        perception_memory := [samplePerception] }).calcPerceptualSurprise
          samplePerception).1 =
      min 1 ((|((samplePerception.food_count : ℚ)) - (samplePerception.food_count : ℚ)| * (3/10) +
        |((samplePerception.creature_count : ℚ)) - (samplePerception.creature_count : ℚ)| * (3/10) +
        |avgSoundAmp samplePerception.sound - avgSoundAmp samplePerception.sound| * (4/10)) / 3) := by
  constructor
  · exact (surprise_formula (sampleBrain "a") samplePerception).1 rfl
  · exact ((surprise_formula
      { sampleBrain "a" with perception_memory := [samplePerception] }
      samplePerception).2 samplePerception rfl).1

/-! ## Food spawning (C9 machinery) -/

theorem length_filter_eq_sum_map (l : List ℕ) (p : ℕ → Bool) :
    (l.filter p).length = (l.map (fun b => if p b then 1 else 0)).sum := by
  induction l with
  | nil => rfl
  | cons b t ih =>
      by_cases hb : p b <;> simp [List.filter_cons, hb, ih, Nat.add_comm]

theorem sum_range_le_one_change (f g : ℕ → ℕ) (a : ℕ) :
    ∀ n : ℕ, (∀ b, b < n → b ≠ a → g b = f b) → g a ≤ f a + 1 →
      ((List.range n).map g).sum ≤ ((List.range n).map f).sum + 1 := by
  intro n
  induction n with
  | zero => intro _ _; simp
  | succ n ih =>
      intro h ha
      rw [List.range_succ, List.map_append, List.map_append,
        List.sum_append, List.sum_append]
      by_cases hn : n = a
      · have heq : (List.range n).map g = (List.range n).map f := by
          refine List.map_congr_left ?_
          intro b hb
          have hb' := List.mem_range.mp hb
          exact h b (by omega) (by omega)
        rw [heq]
        simp only [List.map_cons, List.map_nil, List.sum_cons, List.sum_nil]
        subst hn
        omega
      · have hg : g n = f n := h n (by omega) hn
        have hih := ih (fun b hb hba => h b (by omega) hba) ha
        simp only [List.map_cons, List.map_nil, List.sum_cons, List.sum_nil]
        omega

theorem countP_range_le_one_change (p q : ℕ → Bool) (a n : ℕ)
    (h : ∀ b, b < n → b ≠ a → q b = p b) :
    ((List.range n).filter q).length ≤ ((List.range n).filter p).length + 1 := by
  rw [length_filter_eq_sum_map, length_filter_eq_sum_map]
  refine sum_range_le_one_change _ _ a n ?_ ?_
  · intro b hb hba
    rw [h b hb hba]
  · split <;> split <;> omega

theorem foodCells_setCell_le (w : SimpleWorld) (x y : ℤ) :
    ({ w with grid := setCell w.grid x y 1 } : SimpleWorld).foodCells ≤
      w.foodCells + 1 := by
  show ((List.range w.height.toNat).map fun (j : ℕ) =>
      ((List.range w.width.toNat).filter fun (i : ℕ) =>
        decide (setCell w.grid x y 1 (i : ℤ) (j : ℤ) = 1)).length).sum ≤ _
  refine sum_range_le_one_change _ _ y.toNat w.height.toNat ?_ ?_
  · intro j hj hjy
    congr 1
    refine List.filter_congr ?_
    intro i _
    have hne : ¬((i : ℤ) = x ∧ (j : ℤ) = y) := by
      rintro ⟨-, hy⟩
      omega
    rw [setCell_other _ _ _ _ _ _ hne]
  · refine countP_range_le_one_change _ _ x.toNat w.width.toNat ?_
    intro i _ hix
    have hne : ¬((i : ℤ) = x ∧ ((y.toNat : ℕ) : ℤ) = y) := by
      rintro ⟨hx, -⟩
      omega
    rw [setCell_other _ _ _ _ _ _ hne]

theorem spawnFoodStep_foodCells (acc : SimpleWorld) (s : ℤ × ℤ) :
    (spawnFoodStep acc s).foodCells ≤ acc.foodCells + 1 := by
  show (if acc.grid (s.1 % acc.width) (s.2 % acc.height) = 0 then
      ({ acc with grid := setCell acc.grid (s.1 % acc.width) (s.2 % acc.height) 1 } :
        SimpleWorld)
    else acc).foodCells ≤ acc.foodCells + 1
  split
  · exact foodCells_setCell_le acc _ _
  · omega

theorem spawnFoodStep_grid_change (acc : SimpleWorld) (s : ℤ × ℤ) (i j : ℤ)
    (h : (spawnFoodStep acc s).grid i j ≠ acc.grid i j) :
    acc.grid i j = 0 ∧ (spawnFoodStep acc s).grid i j = 1 := by
  revert h
  show (if acc.grid (s.1 % acc.width) (s.2 % acc.height) = 0 then
      ({ acc with grid := setCell acc.grid (s.1 % acc.width) (s.2 % acc.height) 1 } :
        SimpleWorld)
    else acc).grid i j ≠ acc.grid i j → _ ∧
    (if acc.grid (s.1 % acc.width) (s.2 % acc.height) = 0 then
      ({ acc with grid := setCell acc.grid (s.1 % acc.width) (s.2 % acc.height) 1 } :
        SimpleWorld)
    else acc).grid i j = 1
  split
  · intro h
    by_cases hij : i = s.1 % acc.width ∧ j = s.2 % acc.height
    · constructor
      · rw [hij.1, hij.2]; assumption
      · show setCell acc.grid _ _ 1 i j = 1
        rw [hij.1, hij.2]; exact setCell_same _ _ _ _
    · exact absurd (setCell_other _ _ _ _ _ _ hij) h
  · intro h
    exact absurd rfl h

theorem spawnFold_props (l : List (ℤ × ℤ)) : ∀ w : SimpleWorld,
    (l.foldl spawnFoodStep w).foodCells ≤ w.foodCells + l.length ∧
    ∀ i j, (l.foldl spawnFoodStep w).grid i j ≠ w.grid i j →
      w.grid i j = 0 ∧ (l.foldl spawnFoodStep w).grid i j = 1 := by
  induction l with
  | nil => intro w; exact ⟨by simp, fun i j h => absurd rfl h⟩
  | cons s t ih =>
      intro w
      rw [List.foldl_cons]
      obtain ⟨ihc, ihg⟩ := ih (spawnFoodStep w s)
      constructor
      · calc (t.foldl spawnFoodStep (spawnFoodStep w s)).foodCells
            ≤ (spawnFoodStep w s).foodCells + t.length := ihc
          _ ≤ w.foodCells + 1 + t.length := by
              have := spawnFoodStep_foodCells w s; omega
          _ = w.foodCells + (s :: t).length := by simp; omega
      · intro i j h
        by_cases hstep : (spawnFoodStep w s).grid i j = w.grid i j
        · rw [← hstep] at h ⊢
          exact ihg i j h
        · obtain ⟨h0, h1⟩ := spawnFoodStep_grid_change w s i j hstep
          refine ⟨h0, ?_⟩
          by_cases hfold : (t.foldl spawnFoodStep (spawnFoodStep w s)).grid i j =
              (spawnFoodStep w s).grid i j
          · rw [hfold, h1]
          · exact (ihg i j hfold).2

/-- C9 counterexample: on a 1 x 3 world with density 1/2 the code makes
int(1 * 3 * 0.5) = 1 placement attempt, while the claimed round(1 * 3 * 0.5)
is 2 (Python round half to even rounds 1.5 up to 2). -/
theorem spawn_attempts_counterexample :
    spawnFoodAttempts sampleWorld13 (mkRat 1 2) = 1 ∧
    pyRound (((sampleWorld13.width * sampleWorld13.height : ℤ) : ℚ) *
      mkRat 1 2) = 2 ∧
    (1 : ℤ) ≠ 2 := by
  have harg : (((sampleWorld13.width * sampleWorld13.height : ℤ) : ℚ) *
      mkRat 1 2) = 3/2 := by
    norm_num [sampleWorld13, sampleWorld, Rat.mkRat_eq_divInt, Rat.divInt_eq_div]
  refine ⟨?_, ?_, by decide⟩
  · show (pyInt (((sampleWorld13.width * sampleWorld13.height : ℤ) : ℚ) *
      mkRat 1 2)).toNat = 1
    rw [harg]
    norm_num [pyInt]
  · rw [harg]
    have hfloor : ⌊(3/2 : ℚ)⌋ = 1 := by norm_num
    norm_num [pyRound, hfloor, Int.even_iff]

/-- C9 amended: spawn_food makes exactly int(width * height * density)
placement attempts — truncation toward zero, not round — each placing food
only if the sampled cell is currently empty, so the number of food cells
added is at most int(width * height * density) and a cell only ever changes
from empty to food. -/
theorem spawn_food_attempts_bound (w : SimpleWorld) (density : ℚ)
    (samples : ℕ → ℤ × ℤ) :
    spawnFoodAttempts w density =
      (pyInt (((w.width * w.height : ℤ) : ℚ) * density)).toNat ∧
    (w.spawnFood density samples).foodCells ≤
      w.foodCells + spawnFoodAttempts w density ∧
    ∀ i j, (w.spawnFood density samples).grid i j ≠ w.grid i j →
      w.grid i j = 0 ∧ (w.spawnFood density samples).grid i j = 1 := by
  obtain ⟨hc, hg⟩ :=
    spawnFold_props ((List.range (spawnFoodAttempts w density)).map samples) w
  refine ⟨rfl, ?_, hg⟩
  simpa using hc

/-! ## Perception creature count (C2) -/

theorem countVisual_creature_zero (w : SimpleWorld) (x y radius : ℤ)
    (h : ∀ i j, w.grid i j ≠ 3) :
    (w.getLocalView x y radius).creature_count = 0 := by
  unfold SimpleWorld.getLocalView
  simp only [countVisual, sliceGrid]
  rw [List.sum_eq_zero]
  intro n hn
  simp only [List.mem_map] at hn
  obtain ⟨row, hrow, hlen⟩ := hn
  obtain ⟨j, -, hj⟩ := hrow
  subst hj
  subst hlen
  simp only [List.length_eq_zero, List.filter_eq_nil_iff]
  intro c hc
  obtain ⟨i, -, hi⟩ := List.mem_map.mp hc
  subst hi
  simpa using h _ _

/-- C2: the claim that the engine overlays live agent positions so that the
perception's creature_count equals the number of live agents in the clipped
window fails on the code: the engine passes get_local_view's creature_count
through unchanged, and that counts grid cells holding the creature marker 3,
which no code ever writes. Concretely, with two live agents at (2, 2) and
(3, 3) of the empty sample world — both inside the radius-5 window of the
first — the perception handed to action selection carries creature_count 0
while 2 live agents are in the window. -/
theorem creature_count_overlay_missing :
    (enginePerceive sampleModelTwoLive
      { id := "a", brain := sampleBrain "a", position := (2, 2),
        alive := true }).creature_count = 0 ∧
    specLiveAgentsInView sampleWorld sampleLiveRoster 2 2 5 = 2 ∧
    (0 : ℕ) ≠ 2 := by
  refine ⟨?_, by decide, by decide⟩
  show (sampleModelTwoLive.world.getLocalView 2 2 5).creature_count = 0
  exact countVisual_creature_zero _ 2 2 5
    (fun i j => by simp [sampleModelTwoLive, sampleWorld])

/-! ## Death finality (C6 machinery) -/

theorem processCreature_dead (m : WorldModel) (sc : ℕ) (r : StepRand)
    (idx : ℕ) (c : Creature) (h : c.alive = false) :
    processCreature m sc r idx c = (m, c, []) := by
  simp [processCreature, h]

theorem processCreature_id (m : WorldModel) (sc : ℕ) (r : StepRand)
    (idx : ℕ) (c : Creature) :
    (processCreature m sc r idx c).2.1.id = c.id := by
  by_cases h : c.alive
  · simp only [processCreature, h, if_true]
    split <;> rfl
  · simp [processCreature, h]

theorem processCreature_events (m : WorldModel) (sc : ℕ) (r : StepRand)
    (idx : ℕ) (c : Creature) :
    ∀ e ∈ (processCreature m sc r idx c).2.2,
      c.alive = true ∧ ∀ cid, e.mentions cid → cid = c.id := by
  by_cases h : c.alive
  · intro e he
    refine ⟨h, ?_⟩
    revert he
    simp only [processCreature, h, if_true]
    split
    · simp only [List.mem_cons, List.not_mem_nil, or_false]
      intro he
      rcases he with he | he <;>
        (subst he; intro cid hcid; exact hcid.symm)
    · simp only [List.mem_cons, List.not_mem_nil, or_false]
      intro he
      subst he
      intro cid hcid
      exact hcid.symm
  · simp [processCreature, h]

theorem processRoster_get_dead (sc : ℕ) (r : StepRand) :
    ∀ (roster : List Creature) (m : WorldModel) (idx k : ℕ) (c : Creature),
      roster[k]? = some c → c.alive = false →
      (processRoster sc r m idx roster).2.1[k]? = some c := by
  intro roster
  induction roster with
  | nil => intro m idx k c hc _; simp at hc
  | cons d rest ih =>
      intro m idx k c hc hdead
      cases k with
      | zero =>
          simp only [List.getElem?_cons_zero, Option.some.injEq] at hc
          subst hc
          simp only [processRoster]
          rw [processCreature_dead _ _ _ _ _ hdead]
          simp
      | succ k =>
          simp only [List.getElem?_cons_succ] at hc
          simp only [processRoster]
          rw [List.getElem?_cons_succ]
          exact ih _ _ k c hc hdead

theorem processRoster_get_ids (sc : ℕ) (r : StepRand) :
    ∀ (roster : List Creature) (m : WorldModel) (idx j : ℕ) (c' : Creature),
      (processRoster sc r m idx roster).2.1[j]? = some c' →
      ∃ c0, roster[j]? = some c0 ∧ c'.id = c0.id := by
  intro roster
  induction roster with
  | nil => intro m idx j c' h; simp [processRoster] at h
  | cons d rest ih =>
      intro m idx j c' h
      simp only [processRoster] at h
      cases j with
      | zero =>
          simp only [List.getElem?_cons_zero, Option.some.injEq] at h
          refine ⟨d, by simp, ?_⟩
          rw [← h]
          exact processCreature_id _ _ _ _ _
      | succ j =>
          simp only [List.getElem?_cons_succ] at h
          obtain ⟨c0, hc0, hid⟩ := ih _ _ j c' h
          exact ⟨c0, by simpa using hc0, hid⟩

theorem processRoster_events (sc : ℕ) (r : StepRand) :
    ∀ (roster : List Creature) (m : WorldModel) (idx : ℕ),
      ∀ e ∈ (processRoster sc r m idx roster).2.2,
        ∃ c0 ∈ roster, c0.alive = true ∧ ∀ cid, e.mentions cid → cid = c0.id := by
  intro roster
  induction roster with
  | nil => intro m idx e he; simp [processRoster] at he
  | cons d rest ih =>
      intro m idx e he
      simp only [processRoster] at he
      rw [List.mem_append] at he
      rcases he with he | he
      · obtain ⟨halive, hment⟩ := processCreature_events m sc r idx d e he
        exact ⟨d, by simp, halive, hment⟩
      · obtain ⟨c0, hc0, halive, hment⟩ := ih _ (idx + 1) e he
        exact ⟨c0, by simp [hc0], halive, hment⟩

theorem engineStep_dead (s : EngineState) (r : StepRand) (k : ℕ)
    (c : Creature) (hc : s.creatures[k]? = some c) (hdead : c.alive = false)
    (hu : ∀ j c', s.creatures[j]? = some c' → j ≠ k → c'.id ≠ c.id) :
    (engineStep s r).1.creatures[k]? = some c ∧
    (∀ e ∈ (engineStep s r).2, ¬ e.mentions c.id) ∧
    (∀ j c', (engineStep s r).1.creatures[j]? = some c' → j ≠ k →
      c'.id ≠ c.id) := by
  have hcreatures : (engineStep s r).1.creatures =
      (processRoster s.step_count r s.world_model 0 s.creatures).2.1 := rfl
  have hevents : (engineStep s r).2 =
      (processRoster s.step_count r s.world_model 0 s.creatures).2.2 ++
        [Event.performance (s.step_count + 1)] := rfl
  refine ⟨?_, ?_, ?_⟩
  · rw [hcreatures]
    exact processRoster_get_dead s.step_count r s.creatures s.world_model 0 k c
      hc hdead
  · intro e he hment
    rw [hevents, List.mem_append] at he
    rcases he with he | he
    · obtain ⟨c0, hc0mem, halive, hmentions⟩ :=
        processRoster_events s.step_count r s.creatures s.world_model 0 e he
      have hid : c.id = c0.id := hmentions c.id hment
      obtain ⟨j, hj⟩ := List.mem_iff_getElem?.mp hc0mem
      by_cases hjk : j = k
      · subst hjk
        rw [hj] at hc
        injection hc with hc
        subst hc
        rw [halive] at hdead
        exact Bool.true_eq_false.mp hdead
      · exact hu j c0 hj hjk hid.symm
    · simp only [List.mem_singleton] at he
      subst he
      exact hment
  · intro j c' hj hjk
    rw [hcreatures] at hj
    obtain ⟨c0, hc0, hid⟩ := processRoster_get_ids s.step_count r s.creatures
      s.world_model 0 j c' hj
    rw [hid]
    exact hu j c0 hc0 hjk

/-- C6: once an agent is marked dead, any number of subsequent engine steps
leaves its roster record — position, brain, alive flag — completely
unchanged, and no action or death event of those steps names its id (dead
agents are skipped before any perception, selection or resolution call),
provided no other roster entry shares its id. -/
theorem death_finality (s : EngineState) (k : ℕ) (c : Creature)
    (rs : List StepRand) (hc : s.creatures[k]? = some c)
    (hdead : c.alive = false)
    (hu : ∀ j c', s.creatures[j]? = some c' → j ≠ k → c'.id ≠ c.id) :
    (engineSteps s rs).1.creatures[k]? = some c ∧
    ∀ e ∈ (engineSteps s rs).2, ¬ e.mentions c.id := by
  induction rs generalizing s with
  | nil => exact ⟨hc, by simp [engineSteps]⟩
  | cons r rs ih =>
      obtain ⟨h1, h2, h3⟩ := engineStep_dead s r k c hc hdead hu
      obtain ⟨ih1, ih2⟩ := ih (engineStep s r).1 h1 h3
      refine ⟨ih1, ?_⟩
      intro e he
      simp only [engineSteps] at he
      rw [List.mem_append] at he
      rcases he with he | he
      · exact h2 e he
      · exact ih2 e he

/-- Witness for death_finality: the sample engine state whose index-0
creature is dead; after one concrete step its record is intact and no event
names it. -/
theorem death_finality_witness :
    (engineSteps sampleEngineState [sampleStepRand]).1.creatures[0]? =
      some sampleDeadCreature ∧
    ∀ e ∈ (engineSteps sampleEngineState [sampleStepRand]).2,
      ¬ e.mentions sampleDeadCreature.id := by
  refine death_finality sampleEngineState 0 sampleDeadCreature [sampleStepRand]
    rfl rfl ?_
  intro j c' hj hjk
  cases j with
  | zero => exact absurd rfl hjk
  | succ j =>
      cases j with
      | zero =>
          have : c' = sampleLiveCreature := by
            simpa [sampleEngineState] using hj.symm
          subst this
          decide
      | succ j => simp [sampleEngineState] at hj

end TinyEntities
